import Mathlib

/-!
Verification development for the `word_stone_server` real-time chat core
(`src/index.js`).  The socket server keeps one in-memory store, the session
registry `users : Map<socketId, {username, inventory}>`, and handles four
inbound events: `join`, `send-message`, `update-inventory`, `disconnect`.

The shallow embedding below models:
  * the registry as an insertion-ordered association list with JS `Map`
    semantics (`set` overwrites in place, `get` finds the first match,
    `delete` removes the entry);
  * an inventory as the list of its keys (`Object.keys(inventory)` is the
    only way the server ever inspects an inventory);
  * every outbound emission as an `Emit` value recording its target
    (`io.emit` broadcasts to all, `socket.emit` goes to one socket) and its
    payload, field for field as the JS object literals build them.

Each event handler is a pure function from the current registry (plus the
event payload and the current time) to the new registry and the list of
emissions, in emission order.
-/

set_option maxHeartbeats 1000000

namespace WordStone

/-- A JSON-like value occurring in an outbound payload field. -/
inductive JVal
  | str (s : String)
  | num (n : Nat)
deriving DecidableEq, Repr

/-- The per-session record stored in the `users` map: `{ username, inventory }`.
The inventory is modelled by its key list, since the server only ever reads
`Object.keys(user.inventory)`. -/
structure UserData where
  username : String
  inventory : List String
deriving DecidableEq, Repr

/-- The `users` map, `socket.id → UserData`, as an insertion-ordered
association list (JS `Map` iteration order). -/
abbrev UsersMap := List (String × UserData)

/-- `users.get(sid)`: first entry whose key matches. -/
def mapGet (m : UsersMap) (sid : String) : Option UserData :=
  (m.find? (fun p => p.1 == sid)).map Prod.snd

/-- `users.set(sid, v)`: overwrite the existing entry in place, else append. -/
def mapSet : UsersMap → String → UserData → UsersMap
  | [], sid, v => [(sid, v)]
  | p :: rest, sid, v =>
      if p.1 == sid then (sid, v) :: rest else p :: mapSet rest sid v

/-- `users.delete(sid)`: drop the entry with the given key. -/
def mapDelete (m : UsersMap) (sid : String) : UsersMap :=
  m.filter (fun p => p.1 != sid)

/-- `s.toLowerCase()`, modelled character by character (ASCII lowering, as
JS performs on ASCII words). -/
def strToLower (s : String) : String :=
  ⟨s.data.map Char.toLower⟩

/-- The send-message vocabulary validation (src/index.js lines 43–46):
`tokens.every(token => Object.keys(user.inventory).some(w =>
w.toLowerCase() === token.toLowerCase()))`. -/
def validTokens (tokens : List String) (inventory : List String) : Bool :=
  tokens.all fun token =>
    let word := strToLower token
    inventory.any fun w => strToLower w == word

/-- One entry of a `users-update` payload, as the object literal
`{ id, username, vocabCount: Object.keys(data.inventory).length }` builds
it: an ordered list of field-name/value pairs. -/
def snapshotEntry (sid : String) (d : UserData) : List (String × JVal) :=
  [("id", JVal.str sid), ("username", JVal.str d.username),
   ("vocabCount", JVal.num d.inventory.length)]

/-- The full `users-update` payload:
`Array.from(users.entries()).map(([id, data]) => ({id, username, vocabCount}))`. -/
def usersSnapshot (m : UsersMap) : List (List (String × JVal)) :=
  m.map fun p => snapshotEntry p.1 p.2

/-- The `type` field of a `message` payload: `'sys'` or `'user'`. -/
inductive MsgType
  | sys
  | user
deriving DecidableEq, Repr

/-- Where an emission goes: `io.emit` (all sockets) or `socket.emit`
(exactly one socket). -/
inductive Target
  | all
  | toSocket (sid : String)
deriving DecidableEq, Repr

/-- An outbound payload of the socket server: either a `message` event
(`username` is present only on user messages, `isError` only on the access
denied message) or a `users-update` event. -/
inductive EventPayload
  | message (type : MsgType) (username : Option String) (content : String)
      (isError : Bool) (timestamp : Nat)
  | usersUpdate (entries : List (List (String × JVal)))
deriving DecidableEq, Repr

/-- One outbound emission: a target and a payload. -/
structure Emit where
  target : Target
  payload : EventPayload
deriving DecidableEq, Repr

/-- Content of the system announcement on join. -/
def joinedContent (username : String) : String :=
  "> [" ++ username ++ "] 已连接到服务器。"

/-- Content of the system announcement on disconnect. -/
def leftContent (username : String) : String :=
  "> [" ++ username ++ "] 已断开连接。"

/-- Content of the validation-failure system message. -/
def accessDeniedContent : String :=
  " ACCESS DENIED: 检测到非法词汇！消息未发送。"

/-- Handler for `join` (src/index.js lines 22–36): register the session,
broadcast the full snapshot, broadcast a system announcement. -/
def handleJoin (sid username : String) (inventory : List String) (now : Nat)
    (users : UsersMap) : UsersMap × List Emit :=
  let users' := mapSet users sid ⟨username, inventory⟩
  (users',
   [⟨Target.all, EventPayload.usersUpdate (usersSnapshot users')⟩,
    ⟨Target.all, EventPayload.message MsgType.sys none (joinedContent username) false now⟩])

/-- Handler for `send-message` (src/index.js lines 38–66): drop silently if
the socket has no session; reject to the sender alone if some token is not
in the inventory; otherwise broadcast the user message. -/
def handleSendMessage (sid html : String) (tokens : List String) (now : Nat)
    (users : UsersMap) : UsersMap × List Emit :=
  match mapGet users sid with
  | none => (users, [])
  | some user =>
      if validTokens tokens user.inventory then
        (users,
         [⟨Target.all, EventPayload.message MsgType.user (some user.username) html false now⟩])
      else
        (users,
         [⟨Target.toSocket sid, EventPayload.message MsgType.sys none accessDeniedContent true now⟩])

/-- Handler for `update-inventory` (src/index.js lines 68–79): if the
session exists, replace its inventory and broadcast the full snapshot;
otherwise do nothing. -/
def handleUpdateInventory (sid : String) (inventory : List String)
    (users : UsersMap) : UsersMap × List Emit :=
  match mapGet users sid with
  | none => (users, [])
  | some user =>
      let users' := mapSet users sid { user with inventory := inventory }
      (users', [⟨Target.all, EventPayload.usersUpdate (usersSnapshot users')⟩])

/-- Handler for `disconnect` (src/index.js lines 81–97): if the session
exists, broadcast a system announcement, remove the session, broadcast the
full snapshot; otherwise do nothing. -/
def handleDisconnect (sid : String) (now : Nat)
    (users : UsersMap) : UsersMap × List Emit :=
  match mapGet users sid with
  | none => (users, [])
  | some user =>
      let users' := mapDelete users sid
      (users',
       [⟨Target.all, EventPayload.message MsgType.sys none (leftContent user.username) false now⟩,
        ⟨Target.all, EventPayload.usersUpdate (usersSnapshot users')⟩])

/-- C1: for a connection with a registered session, `send-message` is
accepted and broadcast to all sessions as a user-type message carrying the
author's user name and the rendered content if and only if every required
token case-insensitively matches some key of the sender's inventory. -/
theorem sendMessage_broadcast_iff_validTokens
    (users : UsersMap) (sid html : String) (tokens : List String) (now : Nat)
    (u : UserData) (hu : mapGet users sid = some u) :
    (handleSendMessage sid html tokens now users).2 =
        [⟨Target.all, EventPayload.message MsgType.user (some u.username) html false now⟩]
      ↔ validTokens tokens u.inventory = true := by
  simp only [handleSendMessage, hu]
  cases hv : validTokens tokens u.inventory <;> simp [hv]

/-- Witness for C1 at a concrete input (case-insensitive match of token
`"Hello"` against inventory key `"hello"`). -/
theorem sendMessage_broadcast_iff_validTokens_witness :
    (handleSendMessage "s1" "<b>hi</b>" ["Hello"] 7 [("s1", ⟨"alice", ["hello"]⟩)]).2 =
      [⟨Target.all, EventPayload.message MsgType.user (some "alice") "<b>hi</b>" false 7⟩] :=
  (sendMessage_broadcast_iff_validTokens [("s1", ⟨"alice", ["hello"]⟩)] "s1" "<b>hi</b>"
      ["Hello"] 7 ⟨"alice", ["hello"]⟩ (by decide)).mpr (by decide)

/-- C2: when send-message validation fails, exactly one system message
marked as an error is delivered to the sending socket only, nothing is
broadcast, and the session registry is left unchanged (there is no other
store on the send path). -/
theorem sendMessage_invalid_rejects_privately
    (users : UsersMap) (sid html : String) (tokens : List String) (now : Nat)
    (u : UserData) (hu : mapGet users sid = some u)
    (hv : validTokens tokens u.inventory = false) :
    handleSendMessage sid html tokens now users =
      (users,
       [⟨Target.toSocket sid, EventPayload.message MsgType.sys none accessDeniedContent true now⟩]) := by
  simp [handleSendMessage, hu, hv]

/-- Witness for C2 at a concrete input (token `"goodbye"` absent from the
inventory). -/
theorem sendMessage_invalid_rejects_privately_witness :
    handleSendMessage "s1" "<b>bye</b>" ["goodbye"] 9 [("s1", ⟨"alice", ["hello"]⟩)] =
      ([("s1", ⟨"alice", ["hello"]⟩)],
       [⟨Target.toSocket "s1", EventPayload.message MsgType.sys none accessDeniedContent true 9⟩]) :=
  sendMessage_invalid_rejects_privately [("s1", ⟨"alice", ["hello"]⟩)] "s1" "<b>bye</b>"
    ["goodbye"] 9 ⟨"alice", ["hello"]⟩ (by decide) (by decide)

/-- C3 counterexample: the `users-update` payload produced by a concrete
join carries no `totalRoses` field (the code emits only `id`, `username`,
`vocabCount`), refuting the claimed four-field snapshot. -/
theorem usersUpdate_missing_totalRoses :
    ¬ ∀ e ∈ usersSnapshot (handleJoin "s1" "alice" ["hello"] 0 []).1,
        "totalRoses" ∈ e.map Prod.fst := by
  decide

/-- C3 amended: each `users-update` payload lists, for each live session in
registry iteration order, exactly the three fields `id`, `username` and
`vocabCount` (in that order), with the values taken from that session's
registry entry; there is no `totalRoses` field. -/
theorem usersSnapshot_fields (m : UsersMap) :
    (usersSnapshot m).map (fun e => e.map Prod.fst) =
        m.map (fun _ => ["id", "username", "vocabCount"]) ∧
    (usersSnapshot m).map (fun e => e.map Prod.snd) =
        m.map (fun p => [JVal.str p.1, JVal.str p.2.username,
                         JVal.num p.2.inventory.length]) := by
  induction m with
  | nil => exact ⟨rfl, rfl⟩
  | cons p rest ih =>
      refine ⟨?_, ?_⟩
      · simp only [usersSnapshot, snapshotEntry, List.map_cons, List.map_nil] at ih ⊢
        rw [ih.1]
      · simp only [usersSnapshot, snapshotEntry, List.map_cons, List.map_nil] at ih ⊢
        rw [ih.2]

/-- C4: each session-registry mutation re-emits the full snapshot of the
resulting registry to all connections.  `join` always mutates and always
broadcasts the snapshot (also into an empty registry); `update-inventory`
and `disconnect` either leave the registry untouched and emit nothing at
all (no registered session), or broadcast the full snapshot of the
resulting registry — so every mutating run ends in a snapshot broadcast,
never an incremental diff. -/
theorem mutation_broadcasts_full_snapshot
    (m : UsersMap) (sid uname : String) (inv inv2 : List String) (now : Nat) :
    (Emit.mk Target.all
        (EventPayload.usersUpdate (usersSnapshot (handleJoin sid uname inv now m).1)) ∈
        (handleJoin sid uname inv now m).2) ∧
    (handleUpdateInventory sid inv2 m = (m, []) ∨
      Emit.mk Target.all
        (EventPayload.usersUpdate (usersSnapshot (handleUpdateInventory sid inv2 m).1)) ∈
        (handleUpdateInventory sid inv2 m).2) ∧
    (handleDisconnect sid now m = (m, []) ∨
      Emit.mk Target.all
        (EventPayload.usersUpdate (usersSnapshot (handleDisconnect sid now m).1)) ∈
        (handleDisconnect sid now m).2) := by
  refine ⟨?_, ?_, ?_⟩
  · simp [handleJoin]
  · unfold handleUpdateInventory
    cases mapGet m sid with
    | none => exact Or.inl rfl
    | some u => exact Or.inr (by simp)
  · unfold handleDisconnect
    cases mapGet m sid with
    | none => exact Or.inl rfl
    | some u => exact Or.inr (by simp)

/-- C7: the send path never mutates the registry, so handling the same
send-message event twice in a row yields the same state and the same
emissions — in particular the same accept/reject decision — both times. -/
theorem sendMessage_decision_idempotent
    (m : UsersMap) (sid html : String) (tokens : List String) (now : Nat) :
    (handleSendMessage sid html tokens now m).1 = m ∧
    handleSendMessage sid html tokens now ((handleSendMessage sid html tokens now m).1) =
      handleSendMessage sid html tokens now m := by
  have h1 : (handleSendMessage sid html tokens now m).1 = m := by
    simp only [handleSendMessage]
    cases mapGet m sid with
    | none => rfl
    | some user => by_cases hv : validTokens tokens user.inventory = true <;> simp [hv]
  exact ⟨h1, by rw [h1]⟩

/-- C8: a send-message event with an empty `requiredTokens` list from a
registered session is always accepted and broadcast, whatever the sender's
inventory (in particular an empty one). -/
theorem sendMessage_empty_tokens_accepted
    (m : UsersMap) (sid html : String) (now : Nat)
    (u : UserData) (hu : mapGet m sid = some u) :
    handleSendMessage sid html [] now m =
      (m, [⟨Target.all, EventPayload.message MsgType.user (some u.username) html false now⟩]) := by
  simp [handleSendMessage, hu, validTokens]

/-- Witness for C8 at a concrete input with an empty inventory. -/
theorem sendMessage_empty_tokens_accepted_witness :
    handleSendMessage "s1" "<p>x</p>" [] 4 [("s1", ⟨"bob", []⟩)] =
      ([("s1", ⟨"bob", []⟩)],
       [⟨Target.all, EventPayload.message MsgType.user (some "bob") "<p>x</p>" false 4⟩]) :=
  sendMessage_empty_tokens_accepted [("s1", ⟨"bob", []⟩)] "s1" "<p>x</p>" 4 ⟨"bob", []⟩
    (by decide)

/-- C9: a send-message event on a socket with no registered session is
silently dropped: no emission at all and the registry is unchanged. -/
theorem sendMessage_no_session_dropped
    (m : UsersMap) (sid html : String) (tokens : List String) (now : Nat)
    (hu : mapGet m sid = none) :
    handleSendMessage sid html tokens now m = (m, []) := by
  simp [handleSendMessage, hu]

/-- Witness for C9: a send on an unknown socket id does nothing. -/
theorem sendMessage_no_session_dropped_witness :
    handleSendMessage "ghost" "<p>x</p>" ["hello"] 4 [("s1", ⟨"alice", ["hello"]⟩)] =
      ([("s1", ⟨"alice", ["hello"]⟩)], []) :=
  sendMessage_no_session_dropped [("s1", ⟨"alice", ["hello"]⟩)] "ghost" "<p>x</p>"
    ["hello"] 4 (by decide)

/-- C10: a disconnect of a socket that never joined emits nothing (no
announcement, no `users-update`) and leaves the registry unchanged. -/
theorem disconnect_no_session_noop
    (m : UsersMap) (sid : String) (now : Nat) (hu : mapGet m sid = none) :
    handleDisconnect sid now m = (m, []) := by
  simp [handleDisconnect, hu]

/-- Witness for C10: disconnecting an unknown socket id does nothing. -/
theorem disconnect_no_session_noop_witness :
    handleDisconnect "ghost" 4 [("s1", ⟨"alice", ["hello"]⟩)] =
      ([("s1", ⟨"alice", ["hello"]⟩)], []) :=
  disconnect_no_session_noop [("s1", ⟨"alice", ["hello"]⟩)] "ghost" 4 (by decide)

namespace SpecModel

/-!
The specification also describes a reaction ("rose") core — a message
ledger, a per-message reaction ledger, a rate limiter and the
`send-rose` toggle protocol — whose implementation is not among the source
files (no `send-rose` handler exists in `src/index.js`; the relational
schema declares `messages.roses` and `rose_senders`, and the spec gives the
component design).  The definitions in this namespace are therefore
modelled from the spec (sections 3, 4.2, 4.3), not translated from source
code, and the theorems about them settle the reaction-core claims against
that model.
-/

/-- Modelled from the spec: a Session of the Session Registry (§3) — user
name, vocabulary inventory (key list) and running total of roses
received.  The registry itself, missing from src/, maps connection ids to
sessions. -/
structure SpecSession where
  userName : String
  inventory : List String
  totalRoses : Nat
deriving DecidableEq, Repr

/-- Modelled from the spec: a Message of the Message Ledger (§3) — unique
id, author user name, rendered content, reaction count, creation
timestamp.  The ledger implementation is missing from src/. -/
structure SpecMessage where
  id : String
  author : String
  content : String
  roses : Nat
  timestamp : Nat
deriving DecidableEq, Repr

/-- Modelled from the spec: the four in-memory stores of the real-time core
(§2) — session registry, message ledger (insertion ordered), reaction
ledger (message id → set of reacting user names) and rate limiter (user
name → last toggle instant, in milliseconds).  None of these stores beyond
the session registry exist in src/. -/
structure SpecState where
  sessions : List (String × SpecSession)
  messages : List SpecMessage
  reactions : List (String × List String)
  rateLimit : List (String × Nat)
deriving DecidableEq, Repr

/-- Modelled from the spec: the initial, empty core state (in-memory,
restart-cleared design, §1). -/
def specInit : SpecState := ⟨[], [], [], []⟩

/-- Registry lookup by connection id (first match). -/
def sessGet (ss : List (String × SpecSession)) (cid : String) : Option SpecSession :=
  (ss.find? (fun p => p.1 == cid)).map Prod.snd

/-- Registry write: overwrite the entry in place, else append. -/
def sessSet : List (String × SpecSession) → String → SpecSession → List (String × SpecSession)
  | [], cid, s => [(cid, s)]
  | p :: rest, cid, s =>
      if p.1 == cid then (cid, s) :: rest else p :: sessSet rest cid s

/-- Modelled from the spec: `findByUserName` (§4.1), linear scan returning
the first live session with the given user name. -/
def findByUserName (ss : List (String × SpecSession)) (name : String) :
    Option (String × SpecSession) :=
  ss.find? (fun p => p.2.userName == name)

/-- The reaction set currently recorded for a message id (empty when no
record exists). -/
def reactionSet (r : List (String × List String)) (mid : String) : List String :=
  ((r.find? (fun p => p.1 == mid)).map Prod.snd).getD []

/-- Reaction-ledger write: replace the record for the message id in place,
else append a fresh record. -/
def setReactionSet : List (String × List String) → String → List String →
    List (String × List String)
  | [], mid, s => [(mid, s)]
  | p :: rest, mid, s =>
      if p.1 == mid then (mid, s) :: rest else p :: setReactionSet rest mid s

/-- Rate-limiter lookup: last recorded toggle instant of a user. -/
def rateGet (rl : List (String × Nat)) (name : String) : Option Nat :=
  (rl.find? (fun p => p.1 == name)).map Prod.snd

/-- Rate-limiter write: record a user's toggle instant. -/
def rateSet : List (String × Nat) → String → Nat → List (String × Nat)
  | [], name, t => [(name, t)]
  | p :: rest, name, t =>
      if p.1 == name then (name, t) :: rest else p :: rateSet rest name t

/-- Modelled from the spec: the minimum interval between new-reaction
attempts (1 second, §4.3). -/
def minToggleIntervalMs : Nat := 1000

/-- Modelled from the spec: the reaction-path error taxonomy (§4.3, §7). -/
inductive ReactionError
  | notAuthenticated
  | messageNotFound
  | selfReactionForbidden
  | receiverOffline
  | rateLimited
deriving DecidableEq, Repr

/-- The two outcomes of a reaction toggle. -/
inductive ToggleAction
  | added
  | removed
deriving DecidableEq, Repr

/-- Modelled from the spec: outbound payloads of the reaction core — the
per-session `error` event, the broadcast `rose-update` delta and the
broadcast session snapshot `{connectionId, userName, vocabCount,
totalRoses}` (§6). -/
inductive SpecPayload
  | errorEvt (e : ReactionError)
  | roseUpdate (messageId : String) (roses : Nat) (totalRoses : Nat)
      (sender : String) (receiver : String) (action : ToggleAction)
  | sessionSnapshot (entries : List (String × String × Nat × Nat))
deriving DecidableEq, Repr

/-- One outbound emission of the modelled core. -/
structure SpecEmit where
  target : Target
  payload : SpecPayload
deriving DecidableEq, Repr

/-- Modelled from the spec: `snapshot()` (§4.1) — ordered list of
`(connectionId, userName, vocabCount, totalRoses)` in registry iteration
order. -/
def specSnapshot (ss : List (String × SpecSession)) : List (String × String × Nat × Nat) :=
  ss.map fun p => (p.1, p.2.userName, p.2.inventory.length, p.2.totalRoses)

/-- Modelled from the spec: `register` (§4.1), create/overwrite with
last-join-wins and a fresh rose total. -/
def register (cid userName : String) (inventory : List String) (st : SpecState) : SpecState :=
  { st with sessions := sessSet st.sessions cid ⟨userName, inventory, 0⟩ }

/-- Modelled from the spec: `updateInventory` (§4.1). -/
def updateInventory (cid : String) (inventory : List String) (st : SpecState) : SpecState :=
  match sessGet st.sessions cid with
  | none => st
  | some s => { st with sessions := sessSet st.sessions cid { s with inventory := inventory } }

/-- Modelled from the spec: `remove` (§4.1), destroy the session of a
disconnected connection. -/
def removeSession (cid : String) (st : SpecState) : SpecState :=
  { st with sessions := st.sessions.filter fun p => p.1 != cid }

/-- Modelled from the spec: `validateAndStore` (§4.2) — validate the
required tokens against the author's inventory (same case-insensitive rule
as the send path); on success insert the message with reaction count 0 at
the end of the ledger, on failure mutate nothing. -/
def validateAndStore (authorCid content : String) (tokens : List String)
    (mid : String) (now : Nat) (st : SpecState) : SpecState × Option SpecMessage :=
  match sessGet st.sessions authorCid with
  | none => (st, none)
  | some author =>
      if validTokens tokens author.inventory then
        let msg : SpecMessage := ⟨mid, author.userName, content, 0, now⟩
        ({ st with messages := st.messages ++ [msg] }, some msg)
      else (st, none)

/-- Modelled from the spec: `evictOverCapacity` (§4.2) — when the ledger
exceeds the capacity, remove the single oldest message (insertion order)
together with its reaction record. -/
def evictOverCapacity (maxSize : Nat) (st : SpecState) : SpecState :=
  if st.messages.length > maxSize then
    match st.messages with
    | [] => st
    | m :: rest =>
        { st with messages := rest,
                  reactions := st.reactions.filter fun p => p.1 != m.id }
  else st

/-- Modelled from the spec: `sweepExpired` (§4.2) — remove every message
older than `maxAge` together with its reaction record. -/
def sweepExpired (maxAge now : Nat) (st : SpecState) : SpecState :=
  let keep := st.messages.filter fun m => decide (now - m.timestamp ≤ maxAge)
  { st with messages := keep,
            reactions := st.reactions.filter fun p => keep.any fun m => m.id == p.1 }

/-- Modelled from the spec: the rate check (§4.3) — `true` when the
sender's last recorded toggle (any message) is less than the minimum
interval ago. -/
def rateLimitedB (rl : List (String × Nat)) (name : String) (now : Nat) : Bool :=
  match rateGet rl name with
  | none => false
  | some last => decide (now - last < minToggleIntervalMs)

/-- The mutation performed by a successful toggle (§4.3), with the sender's
current membership in the message's reaction set passed in as
`hasReacted`: flip that membership, adjust the message's reaction count
and the receiver's rose total accordingly (floored at 0 by `Nat`
subtraction), and stamp the sender's rate-limit entry. -/
def applyToggle (senderName rcid : String) (receiver : SpecSession) (mid : String)
    (now : Nat) (hasReacted : Bool) (st : SpecState) : SpecState :=
  { sessions := sessSet st.sessions rcid
      { receiver with totalRoses :=
          if hasReacted then receiver.totalRoses - 1 else receiver.totalRoses + 1 },
    messages := st.messages.map fun m =>
      if m.id == mid then
        { m with roses := if hasReacted then m.roses - 1 else m.roses + 1 }
      else m,
    reactions := setReactionSet st.reactions mid
      (if hasReacted then (reactionSet st.reactions mid).erase senderName
       else senderName :: reactionSet st.reactions mid),
    rateLimit := rateSet st.rateLimit senderName now }

/-- Modelled from the spec: `toggleReaction` (§4.3), the full toggle
protocol — precondition checks in order (`NOT_AUTHENTICATED`,
`MESSAGE_NOT_FOUND`, `SELF_REACTION_FORBIDDEN`, `RECEIVER_OFFLINE`,
`RATE_LIMITED`, the last applied only to new-reaction attempts), every
error delivered to the initiating socket alone with no mutation; on
success the toggle effect followed by a broadcast `rose-update` delta and
a broadcast refreshed session snapshot. -/
def toggleReaction (senderCid targetUserName messageId : String) (now : Nat)
    (st : SpecState) : SpecState × List SpecEmit :=
  match sessGet st.sessions senderCid with
  | none =>
      (st, [⟨Target.toSocket senderCid, SpecPayload.errorEvt ReactionError.notAuthenticated⟩])
  | some sender =>
      match st.messages.find? (fun m => m.id == messageId) with
      | none =>
          (st, [⟨Target.toSocket senderCid, SpecPayload.errorEvt ReactionError.messageNotFound⟩])
      | some msg =>
          if msg.author == sender.userName then
            (st, [⟨Target.toSocket senderCid,
                   SpecPayload.errorEvt ReactionError.selfReactionForbidden⟩])
          else
            match findByUserName st.sessions targetUserName with
            | none =>
                (st, [⟨Target.toSocket senderCid,
                       SpecPayload.errorEvt ReactionError.receiverOffline⟩])
            | some (rcid, receiver) =>
                if !((reactionSet st.reactions messageId).contains sender.userName) &&
                    rateLimitedB st.rateLimit sender.userName now then
                  (st, [⟨Target.toSocket senderCid,
                         SpecPayload.errorEvt ReactionError.rateLimited⟩])
                else if (reactionSet st.reactions messageId).contains sender.userName then
                  (applyToggle sender.userName rcid receiver messageId now true st,
                   [⟨Target.all, SpecPayload.roseUpdate messageId (msg.roses - 1)
                        (receiver.totalRoses - 1) sender.userName targetUserName
                        ToggleAction.removed⟩,
                    ⟨Target.all, SpecPayload.sessionSnapshot (specSnapshot
                        (applyToggle sender.userName rcid receiver messageId now true st).sessions)⟩])
                else
                  (applyToggle sender.userName rcid receiver messageId now false st,
                   [⟨Target.all, SpecPayload.roseUpdate messageId (msg.roses + 1)
                        (receiver.totalRoses + 1) sender.userName targetUserName
                        ToggleAction.added⟩,
                    ⟨Target.all, SpecPayload.sessionSnapshot (specSnapshot
                        (applyToggle sender.userName rcid receiver messageId now false st).sessions)⟩])

/-- C6: a send-rose toggle by a user on a message they authored is rejected
with `SELF_REACTION_FORBIDDEN`, the error is emitted to the initiating
socket alone, and no store is mutated.  (Reaction core modelled from the
spec; absent from src/.) -/
theorem selfReaction_rejected (cid target mid : String) (now : Nat) (st : SpecState)
    (sender : SpecSession) (msg : SpecMessage)
    (hs : sessGet st.sessions cid = some sender)
    (hm : st.messages.find? (fun m => m.id == mid) = some msg)
    (hself : msg.author = sender.userName) :
    toggleReaction cid target mid now st =
      (st, [⟨Target.toSocket cid, SpecPayload.errorEvt ReactionError.selfReactionForbidden⟩]) := by
  simp [toggleReaction, hs, hm, hself]

/-- Witness for C6: a concrete state in which `alice` toggles a rose on her
own message. -/
theorem selfReaction_rejected_witness :
    toggleReaction "c1" "alice" "m1" 2000
        ⟨[("c1", ⟨"alice", ["hello"], 0⟩)], [⟨"m1", "alice", "hi", 0, 50⟩], [], []⟩ =
      (⟨[("c1", ⟨"alice", ["hello"], 0⟩)], [⟨"m1", "alice", "hi", 0, 50⟩], [], []⟩,
       [⟨Target.toSocket "c1", SpecPayload.errorEvt ReactionError.selfReactionForbidden⟩]) :=
  selfReaction_rejected "c1" "alice" "m1" 2000
    ⟨[("c1", ⟨"alice", ["hello"], 0⟩)], [⟨"m1", "alice", "hi", 0, 50⟩], [], []⟩
    ⟨"alice", ["hello"], 0⟩ ⟨"m1", "alice", "hi", 0, 50⟩ (by decide) (by decide) (by decide)

theorem find?_setReactionSet_same (r : List (String × List String)) (mid : String)
    (s : List String) :
    (setReactionSet r mid s).find? (fun q => q.1 == mid) = some (mid, s) := by
  induction r with
  | nil =>
      simp [setReactionSet, List.find?_cons]
  | cons p rest ih =>
      by_cases hb : (p.1 == mid) = true
      · simp [setReactionSet, hb, List.find?_cons]
      · simp [setReactionSet, hb, List.find?_cons, ih]

theorem find?_setReactionSet_other (r : List (String × List String)) (mid mid' : String)
    (s : List String) (h : mid' ≠ mid) :
    (setReactionSet r mid s).find? (fun q => q.1 == mid') =
      r.find? (fun q => q.1 == mid') := by
  induction r with
  | nil =>
      simp [setReactionSet, List.find?_cons, beq_iff_eq, Ne.symm h]
  | cons p rest ih =>
      by_cases hb : (p.1 == mid) = true
      · have hp : p.1 = mid := by simpa using hb
        simp [setReactionSet, hb, List.find?_cons, hp, beq_iff_eq, Ne.symm h]
      · by_cases hq : (p.1 == mid') = true
        · simp [setReactionSet, hb, List.find?_cons, hq]
        · simp [setReactionSet, hb, List.find?_cons, hq, ih]

theorem reactionSet_setSame (r : List (String × List String)) (mid : String)
    (s : List String) :
    reactionSet (setReactionSet r mid s) mid = s := by
  simp [reactionSet, find?_setReactionSet_same]

theorem reactionSet_setOther (r : List (String × List String)) (mid mid' : String)
    (s : List String) (h : mid' ≠ mid) :
    reactionSet (setReactionSet r mid s) mid' = reactionSet r mid' := by
  simp [reactionSet, find?_setReactionSet_other r mid mid' s h]

theorem mem_setReactionSet {r : List (String × List String)} {mid : String}
    {s : List String} {p : String × List String}
    (hp : p ∈ setReactionSet r mid s) : p.1 = mid ∨ p ∈ r := by
  induction r with
  | nil =>
      rw [setReactionSet] at hp
      simp at hp
      subst hp
      exact Or.inl rfl
  | cons q rest ih =>
      by_cases hb : (q.1 == mid) = true
      · rw [setReactionSet, if_pos hb] at hp
        rcases List.mem_cons.1 hp with h1 | h1
        · subst h1; exact Or.inl rfl
        · exact Or.inr (List.mem_cons_of_mem _ h1)
      · rw [setReactionSet, if_neg (by simp [hb])] at hp
        rcases List.mem_cons.1 hp with h1 | h1
        · subst h1; exact Or.inr (List.mem_cons_self _ _)
        · rcases ih h1 with h2 | h2
          · exact Or.inl h2
          · exact Or.inr (List.mem_cons_of_mem _ h2)

theorem find?_filter_of_imp {α : Type} (l : List α) (f q : α → Bool)
    (h : ∀ x, q x = true → f x = true) :
    (l.filter f).find? q = l.find? q := by
  induction l with
  | nil => rfl
  | cons a l ih =>
      by_cases hf : f a = true
      · rw [List.filter_cons_of_pos hf]
        by_cases hq : q a = true
        · rw [List.find?_cons_of_pos _ hq, List.find?_cons_of_pos _ hq]
        · rw [List.find?_cons_of_neg _ (by simp [hq]),
            List.find?_cons_of_neg _ (by simp [hq])]
          exact ih
      · rw [List.filter_cons_of_neg (by simp [hf])]
        have hq : ¬ q a = true := fun hqa => hf (h a hqa)
        rw [List.find?_cons_of_neg _ (by simp [hq])]
        exact ih

/-- Internal strengthened invariant: every message's rose count matches its
reaction-set size, message ids are unique (§3: collision-negligible id
generation), and every reaction record belongs to a message still held by
the ledger (records are destroyed together with their message, §3). -/
def SpecGood (st : SpecState) : Prop :=
  (∀ m ∈ st.messages, m.roses = (reactionSet st.reactions m.id).length) ∧
  (st.messages.map fun m => m.id).Nodup ∧
  (∀ p ∈ st.reactions, p.1 ∈ st.messages.map fun m => m.id)

theorem specGood_init : SpecGood specInit := by
  refine ⟨?_, ?_, ?_⟩ <;> simp [specInit]

theorem specGood_of_eq {st st' : SpecState} (hm : st'.messages = st.messages)
    (hr : st'.reactions = st.reactions) (h : SpecGood st) : SpecGood st' := by
  unfold SpecGood at h ⊢
  rw [hm, hr]
  exact h

theorem specGood_register (cid uname : String) (inv : List String) {st : SpecState}
    (h : SpecGood st) : SpecGood (register cid uname inv st) :=
  specGood_of_eq rfl rfl h

theorem specGood_updateInventory (cid : String) (inv : List String) {st : SpecState}
    (h : SpecGood st) : SpecGood (updateInventory cid inv st) := by
  unfold updateInventory
  cases sessGet st.sessions cid with
  | none => exact h
  | some s => exact specGood_of_eq rfl rfl h

theorem specGood_removeSession (cid : String) {st : SpecState} (h : SpecGood st) :
    SpecGood (removeSession cid st) :=
  specGood_of_eq rfl rfl h

theorem specGood_validateAndStore (cid content : String) (tokens : List String)
    (mid : String) (now : Nat) {st : SpecState}
    (hfresh : mid ∉ st.messages.map fun m => m.id) (h : SpecGood st) :
    SpecGood (validateAndStore cid content tokens mid now st).1 := by
  obtain ⟨h1, h2, h3⟩ := h
  unfold validateAndStore
  split
  · exact ⟨h1, h2, h3⟩
  · rename_i author heq
    split
    · refine ⟨?_, ?_, ?_⟩
      · intro m hm
        rcases List.mem_append.1 hm with hm | hm
        · exact h1 m hm
        · have hm' : m = ⟨mid, author.userName, content, 0, now⟩ := by simpa using hm
          subst hm'
          have hnone : st.reactions.find? (fun p => p.1 == mid) = none := by
            rw [List.find?_eq_none]
            intro p hp hbeq
            have hpm : p.1 = mid := by simpa using hbeq
            exact hfresh (hpm ▸ h3 p hp)
          simp [reactionSet, hnone]
      · show ((st.messages ++ [(⟨mid, author.userName, content, 0, now⟩ : SpecMessage)]).map
            fun m => m.id).Nodup
        rw [List.map_append, List.nodup_append]
        refine ⟨h2, List.nodup_singleton _, ?_⟩
        intro a ha hb
        have hamid : a = mid := by simpa using hb
        subst hamid
        exact hfresh ha
      · intro p hp
        show p.1 ∈ (st.messages ++ [(⟨mid, author.userName, content, 0, now⟩ : SpecMessage)]).map
            fun m => m.id
        rw [List.map_append]
        exact List.mem_append_left _ (h3 p hp)
    · exact ⟨h1, h2, h3⟩

theorem applyToggle_messages_ids (senderName rcid : String) (receiver : SpecSession)
    (mid : String) (now : Nat) (hasReacted : Bool) (st : SpecState) :
    ((applyToggle senderName rcid receiver mid now hasReacted st).messages.map
      fun m => m.id) = st.messages.map fun m => m.id := by
  show ((st.messages.map fun m =>
      if m.id == mid then
        { m with roses := if hasReacted then m.roses - 1 else m.roses + 1 }
      else m).map fun m => m.id) = _
  rw [List.map_map]
  apply List.map_congr_left
  intro m _
  by_cases hb : m.id = mid <;> simp [hb]

theorem specGood_applyToggle (senderName rcid : String) (receiver : SpecSession)
    (mid : String) (now : Nat) (hasReacted : Bool) {st : SpecState}
    (hmid : mid ∈ st.messages.map fun m => m.id)
    (hcr : hasReacted = true → senderName ∈ reactionSet st.reactions mid)
    (h : SpecGood st) :
    SpecGood (applyToggle senderName rcid receiver mid now hasReacted st) := by
  obtain ⟨h1, h2, h3⟩ := h
  refine ⟨?_, ?_, ?_⟩
  · intro m' hm'
    have hm'' : m' ∈ st.messages.map fun m =>
        if m.id == mid then
          { m with roses := if hasReacted then m.roses - 1 else m.roses + 1 }
        else m := hm'
    rcases List.mem_map.1 hm'' with ⟨m, hm, rfl⟩
    by_cases hb : (m.id == mid) = true
    · have hbid : m.id = mid := by simpa using hb
      have hlen := h1 m hm
      rw [hbid] at hlen
      cases hasReacted with
      | true =>
          have hmem := hcr rfl
          rw [if_pos hb]
          show m.roses - 1 = (reactionSet (setReactionSet st.reactions mid
              ((reactionSet st.reactions mid).erase senderName)) m.id).length
          rw [hbid, reactionSet_setSame, List.length_erase_of_mem hmem, hlen]
      | false =>
          rw [if_pos hb]
          show m.roses + 1 = (reactionSet (setReactionSet st.reactions mid
              (senderName :: reactionSet st.reactions mid)) m.id).length
          rw [hbid, reactionSet_setSame, List.length_cons, hlen]
    · have hne : m.id ≠ mid := by simpa using hb
      rw [if_neg hb]
      show m.roses = (reactionSet (setReactionSet st.reactions mid
          (if hasReacted then (reactionSet st.reactions mid).erase senderName
           else senderName :: reactionSet st.reactions mid)) m.id).length
      rw [reactionSet_setOther _ _ _ _ hne]
      exact h1 m hm
  · rw [applyToggle_messages_ids]
    exact h2
  · intro p hp
    rw [applyToggle_messages_ids]
    have hp' : p ∈ setReactionSet st.reactions mid
        (if hasReacted then (reactionSet st.reactions mid).erase senderName
         else senderName :: reactionSet st.reactions mid) := hp
    rcases mem_setReactionSet hp' with h4 | h4
    · exact h4 ▸ hmid
    · exact h3 p h4

theorem specGood_toggleReaction (cid target mid : String) (now : Nat) {st : SpecState}
    (h : SpecGood st) : SpecGood (toggleReaction cid target mid now st).1 := by
  unfold toggleReaction
  split
  · exact h
  · rename_i sender hs
    split
    · exact h
    · rename_i msg hf
      split
      · exact h
      · split
        · exact h
        · rename_i rcid receiver hr
          have hmid : mid ∈ st.messages.map fun m => m.id := by
            have hmem := List.mem_of_find?_eq_some hf
            have hid : msg.id = mid := by simpa using List.find?_some hf
            exact hid ▸ List.mem_map_of_mem _ hmem
          split
          · exact h
          · split
            · rename_i hc
              refine specGood_applyToggle _ _ _ _ _ _ hmid (fun _ => ?_) h
              simpa using hc
            · exact specGood_applyToggle _ _ _ _ _ _ hmid
                (fun hfalse => Bool.noConfusion hfalse) h

theorem specGood_evictOverCapacity (k : Nat) {st : SpecState} (h : SpecGood st) :
    SpecGood (evictOverCapacity k st) := by
  obtain ⟨h1, h2, h3⟩ := h
  unfold evictOverCapacity
  by_cases hlen : st.messages.length > k
  · rw [if_pos hlen]
    cases hmsg : st.messages with
    | nil => exact ⟨h1, h2, h3⟩
    | cons hd rest =>
        have hids := h2
        rw [hmsg, List.map_cons, List.nodup_cons] at hids
        refine ⟨?_, hids.2, ?_⟩
        · intro m hm
          have hmm : m ∈ st.messages := by
            rw [hmsg]
            exact List.mem_cons_of_mem _ hm
          have hne : m.id ≠ hd.id := by
            intro hEq
            exact hids.1 (hEq ▸ List.mem_map_of_mem _ hm)
          have hrs : reactionSet (st.reactions.filter fun p => p.1 != hd.id) m.id
              = reactionSet st.reactions m.id := by
            unfold reactionSet
            rw [find?_filter_of_imp]
            intro p hp
            have hpm : p.1 = m.id := by simpa using hp
            simp [hpm, hne]
          show m.roses = (reactionSet (st.reactions.filter fun p => p.1 != hd.id) m.id).length
          rw [hrs]
          exact h1 m hmm
        · intro p hp
          have hp' := List.mem_filter.1 hp
          have hin := h3 p hp'.1
          rw [hmsg, List.map_cons] at hin
          rcases List.mem_cons.1 hin with hEq | hIn
          · exact absurd hEq (by simpa using hp'.2)
          · exact hIn
  · rw [if_neg hlen]
    exact ⟨h1, h2, h3⟩

theorem specGood_sweepExpired (maxAge now : Nat) {st : SpecState} (h : SpecGood st) :
    SpecGood (sweepExpired maxAge now st) := by
  obtain ⟨h1, h2, h3⟩ := h
  refine ⟨?_, ?_, ?_⟩
  · intro m hm
    have hm' : m ∈ st.messages.filter fun m => decide (now - m.timestamp ≤ maxAge) := hm
    have hm0 : m ∈ st.messages := List.mem_of_mem_filter hm'
    have hrs : reactionSet (st.reactions.filter fun p =>
        (st.messages.filter fun m => decide (now - m.timestamp ≤ maxAge)).any
          fun m => m.id == p.1) m.id = reactionSet st.reactions m.id := by
      unfold reactionSet
      rw [find?_filter_of_imp]
      intro p hp
      have hpm : p.1 = m.id := by simpa using hp
      rw [List.any_eq_true]
      exact ⟨m, hm', by simp [hpm]⟩
    show m.roses = (reactionSet (st.reactions.filter fun p =>
        (st.messages.filter fun m => decide (now - m.timestamp ≤ maxAge)).any
          fun m => m.id == p.1) m.id).length
    rw [hrs]
    exact h1 m hm0
  · show ((st.messages.filter fun m => decide (now - m.timestamp ≤ maxAge)).map
        fun m => m.id).Nodup
    exact List.Nodup.sublist ((List.filter_sublist _).map _) h2
  · intro p hp
    have hp' := List.mem_filter.1 hp
    rcases List.any_eq_true.1 hp'.2 with ⟨m, hm, hbe⟩
    have hpm : m.id = p.1 := by simpa using hbe
    exact hpm ▸ List.mem_map_of_mem _ hm

/-- Modelled from the spec: the core states reachable from the empty state
by the operations of the Broadcast Coordinator (§4.5).  A stored message's
id is assumed fresh, matching the spec's collision-negligible unique id
generation (§3). -/
inductive Reachable : SpecState → Prop
  | init : Reachable specInit
  | reg (cid uname : String) (inv : List String) {st : SpecState} (h : Reachable st) :
      Reachable (register cid uname inv st)
  | updInv (cid : String) (inv : List String) {st : SpecState} (h : Reachable st) :
      Reachable (updateInventory cid inv st)
  | rmSess (cid : String) {st : SpecState} (h : Reachable st) :
      Reachable (removeSession cid st)
  | store (cid content : String) (tokens : List String) (mid : String) (now : Nat)
      {st : SpecState} (h : Reachable st)
      (hfresh : mid ∉ st.messages.map fun m => m.id) :
      Reachable (validateAndStore cid content tokens mid now st).1
  | toggle (cid target mid : String) (now : Nat) {st : SpecState} (h : Reachable st) :
      Reachable (toggleReaction cid target mid now st).1
  | evict (k : Nat) {st : SpecState} (h : Reachable st) :
      Reachable (evictOverCapacity k st)
  | sweep (maxAge now : Nat) {st : SpecState} (h : Reachable st) :
      Reachable (sweepExpired maxAge now st)

theorem specGood_reachable {st : SpecState} (h : Reachable st) : SpecGood st := by
  induction h with
  | init => exact specGood_init
  | reg cid uname inv _ ih => exact specGood_register cid uname inv ih
  | updInv cid inv _ ih => exact specGood_updateInventory cid inv ih
  | rmSess cid _ ih => exact specGood_removeSession cid ih
  | store cid content tokens mid now _ hfresh ih =>
      exact specGood_validateAndStore cid content tokens mid now hfresh ih
  | toggle cid target mid now _ ih => exact specGood_toggleReaction cid target mid now ih
  | evict k _ ih => exact specGood_evictOverCapacity k ih
  | sweep maxAge now _ ih => exact specGood_sweepExpired maxAge now ih

/-- Executable form of the ledger invariant: every message's rose count
equals the size of its reaction set. -/
def checkRosesInv (st : SpecState) : Bool :=
  st.messages.all fun m => m.roses == (reactionSet st.reactions m.id).length

/-- C5: in every state reachable by the modelled core operations (every
quiescent point), every message held by the ledger has its reaction count
equal to the cardinality of its reaction set.  (Reaction core modelled
from the spec; absent from src/.) -/
theorem roses_eq_reaction_card {st : SpecState} (h : Reachable st) :
    checkRosesInv st = true := by
  have hg := specGood_reachable h
  unfold checkRosesInv
  rw [List.all_eq_true]
  intro m hm
  simpa using hg.1 m hm

/-- Witness for C5 at a concrete reachable state: two users join, `alice`
stores a message, then `bob` toggles a rose on it. -/
theorem roses_eq_reaction_card_witness :
    checkRosesInv
      (toggleReaction "c2" "alice" "m1" 2000
        (validateAndStore "c1" "<p>hi</p>" ["hello"] "m1" 100
          (register "c2" "bob" []
            (register "c1" "alice" ["hello"] specInit))).1).1 = true :=
  roses_eq_reaction_card
    (Reachable.toggle "c2" "alice" "m1" 2000
      (Reachable.store "c1" "<p>hi</p>" ["hello"] "m1" 100
        (Reachable.reg "c2" "bob" []
          (Reachable.reg "c1" "alice" ["hello"] Reachable.init))
        (by decide)))

end SpecModel

end WordStone
